import Mathlib

/-!
Verification of `src/screen_dynamics.py` (CRISPR gRNA screen dynamics analysis).

The script's tabular data lives in pandas DataFrames of floating-point counts
in which `NaN` doubles as the missing-value marker.  We embed a cell value as
`PV`: either `nan` (missing / not-a-number), one of the two infinities
(produced only by division by zero), or a finite value modelled as a rational.
A DataFrame is embedded as `DFrame`: a row-index list (guide ids), a column
list (sample names), and a total valuation function; the frame's cells are the
`rows × cols` grid.

Python's substring tests (`"TCR" in col`, `index.str.contains("Wnt")`; the
patterns used are literal, except the alternation `"Essential|CTRL"` which we
expand to a disjunction) are embedded as an executable infix check on the
character lists of the strings.
-/

/-- A pandas cell value: missing/NaN, an infinity, or a finite rational. -/
inductive PV where
  | nan : PV
  | inf : PV
  | ninf : PV
  | val : ℚ → PV
deriving DecidableEq

/-- IEEE-style addition on `PV` (NaN absorbs; opposite infinities give NaN). -/
def pvAdd : PV → PV → PV
  | PV.nan, _ => PV.nan
  | _, PV.nan => PV.nan
  | PV.inf, PV.ninf => PV.nan
  | PV.ninf, PV.inf => PV.nan
  | PV.inf, _ => PV.inf
  | _, PV.inf => PV.inf
  | PV.ninf, _ => PV.ninf
  | _, PV.ninf => PV.ninf
  | PV.val a, PV.val b => PV.val (a + b)

/-- IEEE-style division on `PV`: finite / 0 gives a signed infinity, 0 / 0
gives NaN, NaN absorbs.  This is what pandas does instead of raising. -/
def pvDiv : PV → PV → PV
  | PV.nan, _ => PV.nan
  | _, PV.nan => PV.nan
  | PV.inf, PV.inf => PV.nan
  | PV.inf, PV.ninf => PV.nan
  | PV.ninf, PV.inf => PV.nan
  | PV.ninf, PV.ninf => PV.nan
  | PV.inf, PV.val b => if b < 0 then PV.ninf else PV.inf
  | PV.ninf, PV.val b => if b < 0 then PV.inf else PV.ninf
  | PV.val _, PV.inf => PV.val 0
  | PV.val _, PV.ninf => PV.val 0
  | PV.val a, PV.val b =>
      if b = 0 then (if a = 0 then PV.nan else if a < 0 then PV.ninf else PV.inf)
      else PV.val (a / b)

/-- IEEE-style multiplication on `PV` (only used to rescale by `1e4`). -/
def pvMul : PV → PV → PV
  | PV.nan, _ => PV.nan
  | _, PV.nan => PV.nan
  | PV.inf, PV.inf => PV.inf
  | PV.inf, PV.ninf => PV.ninf
  | PV.ninf, PV.inf => PV.ninf
  | PV.ninf, PV.ninf => PV.inf
  | PV.inf, PV.val b => if b = 0 then PV.nan else if b < 0 then PV.ninf else PV.inf
  | PV.val a, PV.inf => if a = 0 then PV.nan else if a < 0 then PV.ninf else PV.inf
  | PV.ninf, PV.val b => if b = 0 then PV.nan else if b < 0 then PV.inf else PV.ninf
  | PV.val a, PV.ninf => if a = 0 then PV.nan else if a < 0 then PV.inf else PV.ninf
  | PV.val a, PV.val b => PV.val (a * b)

/-- Is a list a (contiguous) prefix of another, comparing characters? -/
def listPrefix : List Char → List Char → Bool
  | [], _ => true
  | _ :: _, [] => false
  | a :: as, b :: bs => a == b && listPrefix as bs

/-- Is `pat` a contiguous infix of `l`? -/
def listInfix (pat l : List Char) : Bool :=
  match l with
  | [] => listPrefix pat []
  | _ :: rest => listPrefix pat l || listInfix pat rest

/-- Python's `pat in s` / pandas `.str.contains(pat)` for a literal pattern. -/
def strContains (s pat : String) : Bool :=
  listInfix pat.toList s.toList

/-- A pandas DataFrame of guide (row) × sample (column) values. -/
structure DFrame where
  rows : List String
  cols : List String
  val : String → String → PV

/-- `df.ix[~df.index.isin(out)]`: drop the rows whose id is in `out`. -/
def dropRows (d : DFrame) (out : List String) : DFrame :=
  { d with rows := d.rows.filter (fun r => !(out.contains r)) }

/-- `df.loc[rows satisfying p, :] = np.nan`: mask whole rows. -/
def maskRows (d : DFrame) (p : String → Bool) : DFrame :=
  { d with val := fun r c => if p r then PV.nan else d.val r c }

/-- Cell-wise masking: set the cells satisfying `p` to NaN. -/
def maskCells (d : DFrame) (p : String → String → Bool) : DFrame :=
  { d with val := fun r c => if p r c then PV.nan else d.val r c }

/-- `df.drop(c0, axis=1)` (a no-op when the column is absent, matching the
guarded drop in the source). -/
def dropCol (d : DFrame) (c0 : String) : DFrame :=
  { d with cols := d.cols.filter (fun c => !(c == c0)) }

/-- All cell values of the frame, row-major (`df.values.reshape(...)`). -/
def dfValues (d : DFrame) : List PV :=
  d.rows.flatMap (fun r => d.cols.map (fun c => d.val r c))

/-- `x[~np.isnan(x)]`: the non-missing finite values of the frame.  (The
frames reaching this point hold raw counts, so no infinities occur.) -/
def nonNanVals (d : DFrame) : List ℚ :=
  (dfValues d).filterMap (fun v => match v with | PV.val q => some q | _ => none)

/-- `np.percentile(v, 95)` with the default linear interpolation:
position `h = (n-1)·0.95` in ascending sorted order, interpolating between
the floor and ceiling indices.  numpy raises on an empty input, embedded as
`none`. -/
def percentile95 (l : List ℚ) : Option ℚ :=
  match l with
  | [] => none
  | _ :: _ =>
    let s := List.insertionSort (fun a b : ℚ => a ≤ b) l
    let n := s.length
    let h : ℚ := ((n : ℚ) - 1) * (95 / 100)
    let i : ℕ := Int.toNat ⌊h⌋
    let j : ℕ := Int.toNat ⌈h⌉
    let lo := s.getD i 0
    let hi := s.getD j 0
    some (lo + (h - (i : ℚ)) * (hi - lo))

/-- `df > lower_bound` cell-wise: false on NaN, true on `+inf`. -/
def pvGt (x : PV) (b : ℚ) : Bool :=
  match x with
  | PV.val q => decide (b < q)
  | PV.inf => true
  | _ => false

/-- `df.where(df > lb, np.nan)`: keep the cells strictly above `lb`, set every
other cell (including NaN cells) to NaN. -/
def whereGT (d : DFrame) (lb : ℚ) : DFrame :=
  { d with val := fun r c => if pvGt (d.val r c) lb then d.val r c else PV.nan }

/-- The default `filter_out` list of `filter_gRNAs`: gRNAs not used in the
screen (source lines 28-38). -/
def default_filter_out : List String :=
  ["CTRL00717", "CTRL00728", "CTRL00783", "CTRL00801",
   "CTRL00851", "CTRL00859", "CTRL00868", "CTRL00872",
   "CTRL00878", "CTRL00881", "CTRL00969", "CTRL00972",
   "CTRL00983",
   "Essential_library_ABL1_1", "Essential_library_ABL1_2", "Essential_library_ABL1_3",
   "Essential_library_MAPK1_1", "Essential_library_MAPK1_2", "Essential_library_MAPK1_3",
   "Essential_library_GATA1_1", "Essential_library_GATA1_2", "Essential_library_GATA1_3",
   "Essential_library_BRCA2_1", "Essential_library_BRCA2_2", "Essential_library_BRCA2_3",
   "Essential_library_PARP1_1", "Essential_library_PARP1_2", "Essential_library_PARP1_3"]

/-- Does a sample column belong to the TCR sub-library
(`('TCR' in col) or ('Jurkat' in col)`)? -/
def colTCR (c : String) : Bool :=
  strContains c "TCR" || strContains c "Jurkat"

/-- Does a sample column belong to the WNT sub-library
(`('WNT' in col) or ('HEK' in col)`)?  Tested only in the `elif`, i.e. when
`colTCR` failed. -/
def colWNT (c : String) : Bool :=
  strContains c "WNT" || strContains c "HEK"

/-- The state of the two matrices of `filter_gRNAs` at the point where the
noise threshold is computed (source lines 25-58): first component the working
matrix `df` (unused rows dropped, opposite-sub-library cells masked), second
component the reference matrix `filtered` (the masked copy: used control
rows masked, same-sub-library cells masked).  In each column-loop iteration
the masking touches only that column, so the loop is embedded as one
cell-wise mask. -/
def filter_pair (df : DFrame) (filter_out : List String) : DFrame × DFrame :=
  let filtered := maskRows df
    (fun r => (strContains r "Essential" || strContains r "CTRL") && !(filter_out.contains r))
  let df1 := dropRows df filter_out
  let df2 := maskCells df1
    (fun r c => (colTCR c && strContains r "Wnt")
      || (!colTCR c && colWNT c && strContains r "Tcr"))
  let filtered2 := maskCells filtered
    (fun r c => (colTCR c && strContains r "Tcr")
      || (!colTCR c && colWNT c && strContains r "Wnt"))
  (dropCol df2 "plasmid_pool_ESS", dropCol filtered2 "plasmid_pool_ESS")

/-- `filter_gRNAs` (source lines 20-81): build the working and reference
matrices, take the 95th percentile of the reference's non-missing values as
the noise threshold (numpy raises on an empty input, embedded as
`Except.error`), and mask every working-matrix cell at or below it.  The
plotting side effects are out of scope. -/
def filter_gRNAs (df : DFrame) (filter_out : List String := default_filter_out) :
    Except String DFrame :=
  match percentile95 (nonNanVals (filter_pair df filter_out).2) with
  | none => Except.error "percentile of empty noise distribution"
  | some lb => Except.ok (whereGT (filter_pair df filter_out).1 lb)

/-- `x.sum()` of a pandas column: skip NaN cells, sum the rest (an all-NaN
column sums to `0`). -/
def pvSumSkipNa (l : List PV) : PV :=
  l.foldr (fun x acc => if x = PV.nan then acc else pvAdd x acc) (PV.val 0)

/-- One column of a frame, top to bottom. -/
def colVals (d : DFrame) (c : String) : List PV :=
  d.rows.map (fun r => d.val r c)

/-- Column sum of the non-missing values (`df[c].sum()`). -/
def colSum (d : DFrame) (c : String) : PV :=
  pvSumSkipNa (colVals d c)

/-- `normalize_by_total` (source lines 84-88), identical to the inline
`df.apply(lambda x: (x / x.sum(skipna=True)) * 1e4, axis=0)` at source lines
415, 418 and 421 (`skipna=True` is the pandas default): rescale every column
by its sum of non-missing values times `1e4`. -/
def normalize_by_total (d : DFrame) : DFrame :=
  { d with val := fun r c => pvMul (pvDiv (d.val r c) (colSum d c)) (PV.val 10000) }

/-! ### Sensitivity scorer (`screen_zscore`, source lines 91-113 and 442-472)

The scorer runs on a single sample column after `.dropna()`, so its input is
embedded as a plain list of (guide id, value) pairs with real values (floats
are modelled as reals). -/

/-- `np.mean` of a list (`sum / n`; numpy emits NaN on an empty input, which
under Lean's `x / 0 = 0` convention becomes `0` — the claims below always
assume non-empty selections). -/
noncomputable def npmean (l : List ℝ) : ℝ :=
  l.sum / l.length

/-- `np.std` of a list: the population standard deviation (`ddof=0`). -/
noncomputable def npstd (l : List ℝ) : ℝ :=
  Real.sqrt ((l.map (fun x => (x - npmean l) ^ 2)).sum / l.length)

/-- pandas `Series.std()`: the sample standard deviation (`ddof=1`). -/
noncomputable def pdstd (l : List ℝ) : ℝ :=
  Real.sqrt ((l.map (fun x => (x - npmean l) ^ 2)).sum / ((l.length : ℝ) - 1))

/-- The guide-id selections of the scorer: values whose id contains
`"Essential"` (positive controls). -/
def posControls (s : List (String × ℝ)) : List ℝ :=
  (s.filter (fun p => strContains p.1 "Essential")).map Prod.snd

/-- Values whose id contains `"CTRL"` (negative controls). -/
def negControls (s : List (String × ℝ)) : List ℝ :=
  (s.filter (fun p => strContains p.1 "CTRL")).map Prod.snd

/-- The score lambda `Z` of `screen_zscore` (source line 94):
`1 - 3*(np.std(pos) + np.std(neg)) / abs(np.mean(pos) - np.mean(neg))`. -/
noncomputable def Zform (pos neg : List ℝ) : ℝ :=
  1 - 3 * (npstd pos + npstd neg) / |npmean pos - npmean neg|

/-- `screen_zscore(series, z_score=...)` (source lines 91-113): optionally
z-score the whole series with pandas mean/std, select positive and negative
controls by id substring, return `Z pos neg`.  Plotting is out of scope. -/
noncomputable def screen_zscore (s : List (String × ℝ)) (z_score : Bool) : ℝ :=
  let v := s.map Prod.snd
  let s2 := if z_score then s.map (fun p => (p.1, (p.2 - npmean v) / pdstd v)) else s
  Zform (posControls s2) (negControls s2)

/-- The per-sample efficiency of the `zez` summary (source line 471):
`zez["efficiency"] = 1 / -zez["z_score"]`. -/
noncomputable def zez_efficiency (z : ℝ) : ℝ :=
  1 / (-z)

/-- `screen[col].dropna()` (source line 457): one column of a frame as the
(guide id, value) series of its non-missing finite cells. -/
noncomputable def colDropna (d : DFrame) (c : String) : List (String × ℝ) :=
  d.rows.filterMap (fun r =>
    match d.val r c with
    | PV.val q => some (r, (q : ℝ))
    | _ => none)

/-! ### Comparator (`gRNA_scatter` / `gRNA_maplot` / `gRNA_rank`,
source lines 116-283) -/

/-- `x.iloc[np.random.permutation(len(x))]` (source line 235): reorder the
rows by a permutation of the positions, modelled as an explicit index-list
parameter (the source draws it randomly). -/
def permuteRows {β : Type} (perm : List ℕ) (l : List β) : List β :=
  perm.filterMap (fun i => l.get? i)

/-- Per-guide fold-change of `gRNA_rank` (e.g. source line 247):
`fc = np.log2(1 + x[screen]) - np.log2(1 + x[b])`, taking each guide's pair
(screen value, baseline value). -/
noncomputable def fold_change (xs : List (String × ℝ × ℝ)) : List (String × ℝ) :=
  xs.map (fun p => (p.1, Real.logb 2 (1 + p.2.1) - Real.logb 2 (1 + p.2.2)))

/-- The rank of the element `v` sitting at position `i` of series `l` under
`Series.rank(ascending=False, method="first")`: one plus the number of
strictly larger values anywhere plus the number of equal values at earlier
positions. -/
def rankAt {α : Type} [LinearOrder α] (l : List α) (i : ℕ) (v : α) : ℕ :=
  1 + l.countP (fun y => decide (v < y)) + (l.take i).countP (fun y => decide (y = v))

/-- `fc.rank(ascending=False, method="first")` (source line 270): descending
ranks, ties broken by position in the series. -/
def rank_desc_first {α : Type} [LinearOrder α] (l : List α) : List ℕ :=
  l.enum.map (fun p => rankAt l p.1 p.2)

/-- The ranked output of one `gRNA_rank` panel: randomly permute the joined
rows, compute fold-changes, rank them descending with first-occurrence tie
breaking, and pair each guide id with its rank. -/
noncomputable def gRNA_rank_ranks (perm : List ℕ) (pairs : List (String × ℝ × ℝ)) :
    List (String × ℕ) :=
  let fc := fold_change (permuteRows perm pairs)
  (fc.map Prod.fst).zip (rank_desc_first (fc.map Prod.snd))

/-- The category flags built by the plotting functions (source lines 145-150,
208-213 and 263-268, identical in all three): a Boolean per palette slot, in
insertion order Wnt, CTRL, Tcr, Ess. -/
def color_flags (g : String) : List (ℕ × Bool) :=
  [(0, strContains g "Wnt"), (1, strContains g "CTRL"),
   (2, strContains g "Tcr"), (3, strContains g "Ess")]

/-- `colors.apply(lambda x: x[x].index.tolist()[0], axis=1)` per guide: keep
the flags that are true and take the first one.  Indexing `[0]` into an empty
match list raises `IndexError`, embedded as `none`. -/
def guide_color (g : String) : Option ℕ :=
  ((color_flags g).filter (fun p => p.2)).head?.map Prod.fst

/-! ### Concrete example frames used by witnesses and counterexamples -/

/-- A one-cell frame: a "Wnt"-tagged guide in a "TCR"-named sample column. -/
def exDF1 : DFrame := ⟨["Wnt_g1"], ["TCR_stim"], fun _ _ => PV.val 7⟩

/-- A frame holding the "plasmid_pool_ESS" column next to an ordinary one. -/
def exDF9 : DFrame := ⟨["Wnt_g1"], ["plasmid_pool_ESS", "s1"], fun _ _ => PV.val 5⟩

/-- A frame whose only guide is an in-use control, so the reference matrix is
entirely masked. -/
def exDF6 : DFrame := ⟨["CTRL001"], ["s1"], fun _ _ => PV.val 5⟩

/-- A frame with an all-zero column and an all-missing column. -/
def exDF5 : DFrame :=
  ⟨["g1", "g2"], ["zeros", "missing"],
   fun _ c => if c == "missing" then PV.nan else PV.val 0⟩

/-- The spec's threshold scenario: an unused (excluded) control with count
50, an in-use positive control with count 500, and a library guide with
count 50, in a sample column matching no sub-library pattern. -/
def exDF2 : DFrame :=
  ⟨["CTRL00717", "Essential_X_1", "Wnt_sg1"], ["sample1"],
   fun r _ =>
     if r == "CTRL00717" then PV.val 50
     else if r == "Essential_X_1" then PV.val 500
     else PV.val 50⟩

/-- A sample column with two positive controls (values 1, 3) and two
negative controls (values 10, 14). -/
def exDF4 : DFrame :=
  ⟨["Essential_A_1", "Essential_A_2", "CTRL001", "CTRL002"], ["s"],
   fun r _ =>
     if r == "Essential_A_1" then PV.val 1
     else if r == "Essential_A_2" then PV.val 3
     else if r == "CTRL001" then PV.val 10 else PV.val 14⟩

/-- Two guides with identical (screen, baseline) value pairs, hence tied
fold-changes. -/
def exPairs8 : List (String × ℝ × ℝ) := [("A", (1, 0)), ("B", (1, 0))]

/-- A series with spread in both control groups: positives 1, 3 and
negatives 10, 14. -/
def exS7 : List (String × ℝ) :=
  [("Essential_A_1", 1), ("Essential_A_2", 3), ("CTRL001", 10), ("CTRL002", 14)]

/-! ### Helper lemmas about the filter pipeline -/

/-- A successful `filter_gRNAs` run is the threshold-masked working matrix. -/
theorem filter_gRNAs_ok_elim (df : DFrame) (fo : List String) (out : DFrame)
    (h : filter_gRNAs df fo = Except.ok out) :
    ∃ lb, percentile95 (nonNanVals (filter_pair df fo).2) = some lb ∧
      out = whereGT (filter_pair df fo).1 lb := by
  unfold filter_gRNAs at h
  cases hp : percentile95 (nonNanVals (filter_pair df fo).2) with
  | none => rw [hp] at h; simp at h
  | some lb =>
      rw [hp] at h
      simp only [Except.ok.injEq] at h
      exact ⟨lb, rfl, h.symm⟩

/-- The converse: a computed percentile yields the masked working matrix. -/
theorem filter_gRNAs_ok_intro (df : DFrame) (fo : List String) (lb : ℚ)
    (h : percentile95 (nonNanVals (filter_pair df fo).2) = some lb) :
    filter_gRNAs df fo = Except.ok (whereGT (filter_pair df fo).1 lb) := by
  unfold filter_gRNAs
  rw [h]

/-- Cell values of the working matrix at the threshold-computation point. -/
theorem filter_pair_fst_val (df : DFrame) (fo : List String) (r c : String) :
    (filter_pair df fo).1.val r c =
      if (colTCR c && strContains r "Wnt")
          || (!colTCR c && colWNT c && strContains r "Tcr") then PV.nan
      else df.val r c := rfl

/-- Cell values of the reference (masked-copy) matrix at the
threshold-computation point. -/
theorem filter_pair_snd_val (df : DFrame) (fo : List String) (r c : String) :
    (filter_pair df fo).2.val r c =
      if (colTCR c && strContains r "Tcr")
          || (!colTCR c && colWNT c && strContains r "Wnt") then PV.nan
      else if (strContains r "Essential" || strContains r "CTRL")
          && !(fo.contains r) then PV.nan
      else df.val r c := rfl

/-- Cell values after the threshold mask. -/
theorem whereGT_val (d : DFrame) (lb : ℚ) (r c : String) :
    (whereGT d lb).val r c =
      if pvGt (d.val r c) lb then d.val r c else PV.nan := rfl

/-- C1 counterexample: the claim asserts that after filtering no "Wnt"-tagged
guide row has a defined value in a "TCR"-named column in the reference
(masked-copy) matrix as well.  In the code (line 51) the reference matrix
masks the SAME sub-library ("Tcr" rows) in TCR columns, so the "Wnt" row's
value survives there: at this concrete frame the reference cell keeps the
defined value `7`. -/
theorem filter_opposite_library_claim_cex :
    "Wnt_g1" ∈ exDF1.rows ∧ "TCR_stim" ∈ exDF1.cols ∧
    strContains "Wnt_g1" "Wnt" = true ∧ colTCR "TCR_stim" = true ∧
    (filter_pair exDF1 default_filter_out).2.val "Wnt_g1" "TCR_stim" = PV.val 7 ∧
    (filter_pair exDF1 default_filter_out).2.val "Wnt_g1" "TCR_stim" ≠ PV.nan := by
  refine ⟨?_, ?_, ?_, ?_, ?_, ?_⟩ <;> decide

/-- C1 (amended): in the working matrix (and in the returned filtered output)
`filter_gRNAs` masks the OPPOSITE sub-library per sample column — "Wnt" rows
in "TCR"/"Jurkat" columns, and "Tcr" rows in "WNT"/"HEK" columns not also
matching "TCR"/"Jurkat" (the `elif` gives TCR precedence) — while in the
reference (masked-copy) matrix it masks the SAME sub-library ("Tcr" rows in
TCR columns, "Wnt" rows in WNT columns), so that the reference retains the
cross-library false assignments as the noise distribution. -/
theorem filter_sublibrary_masking (df : DFrame) (fo : List String) (r c : String) :
    (colTCR c = true → strContains r "Wnt" = true →
      (filter_pair df fo).1.val r c = PV.nan ∧
      ∀ out, filter_gRNAs df fo = Except.ok out → out.val r c = PV.nan) ∧
    (colTCR c = false → colWNT c = true → strContains r "Tcr" = true →
      (filter_pair df fo).1.val r c = PV.nan ∧
      ∀ out, filter_gRNAs df fo = Except.ok out → out.val r c = PV.nan) ∧
    (colTCR c = true → strContains r "Tcr" = true →
      (filter_pair df fo).2.val r c = PV.nan) ∧
    (colTCR c = false → colWNT c = true → strContains r "Wnt" = true →
      (filter_pair df fo).2.val r c = PV.nan) := by
  have hout : (filter_pair df fo).1.val r c = PV.nan →
      ∀ out, filter_gRNAs df fo = Except.ok out → out.val r c = PV.nan := by
    intro hv out h
    obtain ⟨lb, _, heq⟩ := filter_gRNAs_ok_elim df fo out h
    subst heq
    rw [whereGT_val, hv]
    simp [pvGt]
  refine ⟨fun h1 h2 => ?_, fun h1 h2 h3 => ?_, fun h1 h2 => ?_, fun h1 h2 h3 => ?_⟩
  · have hv : (filter_pair df fo).1.val r c = PV.nan := by
      rw [filter_pair_fst_val]; simp [h1, h2]
    exact ⟨hv, hout hv⟩
  · have hv : (filter_pair df fo).1.val r c = PV.nan := by
      rw [filter_pair_fst_val]; simp [h1, h2, h3]
    exact ⟨hv, hout hv⟩
  · rw [filter_pair_snd_val]; simp [h1, h2]
  · rw [filter_pair_snd_val]; simp [h1, h2, h3]

/-- C1 witness: the amended masking facts at a concrete frame. -/
theorem filter_sublibrary_masking_witness :
    colTCR "TCR_stim" = true ∧ strContains "Wnt_g1" "Wnt" = true ∧
    (filter_pair exDF1 default_filter_out).1.val "Wnt_g1" "TCR_stim" = PV.nan :=
  ⟨by decide, by decide,
    ((filter_sublibrary_masking exDF1 default_filter_out "Wnt_g1" "TCR_stim").1
      (by decide) (by decide)).1⟩

/-- C9: `filter_gRNAs` drops the column "plasmid_pool_ESS" if present — and
only that column — from both the working and the reference matrix, so the
returned column set is the input's minus that name. -/
theorem filter_drops_plasmid_pool_ESS_col (df : DFrame) (fo : List String) :
    (filter_pair df fo).1.cols = df.cols.filter (fun c => !(c == "plasmid_pool_ESS")) ∧
    (filter_pair df fo).2.cols = df.cols.filter (fun c => !(c == "plasmid_pool_ESS")) ∧
    ∀ out, filter_gRNAs df fo = Except.ok out →
      out.cols = df.cols.filter (fun c => !(c == "plasmid_pool_ESS")) := by
  refine ⟨rfl, rfl, fun out hout => ?_⟩
  obtain ⟨lb, _, heq⟩ := filter_gRNAs_ok_elim df fo out hout
  subst heq
  rfl

/-- C9 witness: on `exDF9` the run succeeds and returns exactly the column
set without "plasmid_pool_ESS". -/
theorem filter_drops_plasmid_pool_ESS_col_witness :
    filter_gRNAs exDF9 default_filter_out =
      Except.ok (whereGT (filter_pair exDF9 default_filter_out).1 5) ∧
    (whereGT (filter_pair exDF9 default_filter_out).1 5).cols = ["s1"] := by
  have hvals : nonNanVals (filter_pair exDF9 default_filter_out).2 = [5] := by decide
  have hper : percentile95 (nonNanVals (filter_pair exDF9 default_filter_out).2) = some 5 := by
    rw [hvals]
    norm_num [percentile95]
  have hrun := filter_gRNAs_ok_intro exDF9 default_filter_out 5 hper
  refine ⟨hrun, ?_⟩
  have h := (filter_drops_plasmid_pool_ESS_col exDF9 default_filter_out).2.2
    (whereGT (filter_pair exDF9 default_filter_out).1 5) hrun
  rw [h]
  decide

/-- C6: when the reference (masked) matrix has no non-missing value at all,
`filter_gRNAs` fails loudly (numpy's percentile raises on an empty input,
embedded as `Except.error`) instead of silently continuing with a
NaN-derived threshold. -/
theorem filter_empty_noise_raises (df : DFrame) (fo : List String)
    (h : nonNanVals (filter_pair df fo).2 = []) :
    filter_gRNAs df fo = Except.error "percentile of empty noise distribution" := by
  unfold filter_gRNAs
  rw [h]
  rfl

/-- C6 witness: on `exDF6` the reference matrix is all-missing and the
filter errors out. -/
theorem filter_empty_noise_raises_witness :
    nonNanVals (filter_pair exDF6 default_filter_out).2 = [] ∧
    filter_gRNAs exDF6 default_filter_out =
      Except.error "percentile of empty noise distribution" :=
  ⟨by decide, filter_empty_noise_raises exDF6 default_filter_out (by decide)⟩

/-- C10: the per-guide category (palette slot) of the three plotting
functions is assigned by testing the substrings "Wnt", "CTRL", "Tcr", "Ess"
in that fixed order, first match wins, and is `none` (an `IndexError` in the
source: `[0]` of an empty match list) exactly when none of the four
substrings occurs in the guide id. -/
theorem guide_color_first_match_totality (g : String) :
    (guide_color g = none ↔
      strContains g "Wnt" = false ∧ strContains g "CTRL" = false ∧
      strContains g "Tcr" = false ∧ strContains g "Ess" = false) ∧
    (strContains g "Wnt" = true → guide_color g = some 0) ∧
    (strContains g "Wnt" = false → strContains g "CTRL" = true →
      guide_color g = some 1) ∧
    (strContains g "Wnt" = false → strContains g "CTRL" = false →
      strContains g "Tcr" = true → guide_color g = some 2) ∧
    (strContains g "Wnt" = false → strContains g "CTRL" = false →
      strContains g "Tcr" = false → strContains g "Ess" = true →
      guide_color g = some 3) := by
  cases h1 : strContains g "Wnt" <;> cases h2 : strContains g "CTRL" <;>
    cases h3 : strContains g "Tcr" <;> cases h4 : strContains g "Ess" <;>
    simp [guide_color, color_flags, h1, h2, h3, h4]

/-- C10 witness: a guide id matching no pattern gets no category (the raise),
one matching several gets the first category in order. -/
theorem guide_color_first_match_totality_witness :
    guide_color "ABC123" = none ∧ guide_color "Wnt_CTRL_1" = some 0 :=
  ⟨(guide_color_first_match_totality "ABC123").1.mpr (by decide),
   (guide_color_first_match_totality "Wnt_CTRL_1").2.1 (by decide)⟩

/-- C5 (code bug): `normalize_by_total` never raises — it is a total
function on frames — and on a column whose non-missing values sum to zero
(here an all-zero column, and an all-missing column whose pandas sum is also
0) it silently divides, producing NaN cells (0/0) in the output instead of
flagging the condition as the spec demands. -/
theorem normalize_zero_sum_silent_nan :
    colSum exDF5 "zeros" = PV.val 0 ∧
    (normalize_by_total exDF5).val "g1" "zeros" = PV.nan ∧
    (normalize_by_total exDF5).val "g2" "zeros" = PV.nan ∧
    (∀ r, exDF5.val r "missing" = PV.nan) ∧
    colSum exDF5 "missing" = PV.val 0 ∧
    (normalize_by_total exDF5).val "g1" "missing" = PV.nan := by
  refine ⟨?_, ?_, ?_, fun r => rfl, ?_, ?_⟩ <;>
    simp [normalize_by_total, colSum, colVals, exDF5, pvSumSkipNa, pvAdd, pvDiv, pvMul]

/-- C2: a successful `filter_gRNAs` run uses the 95th percentile of the
reference matrix's non-missing values as the noise threshold `lb`, masks
every working-matrix value at or below `lb`, returns every value strictly
above `lb` unchanged, and keeps missing cells missing. -/
theorem filter_noise_threshold_masking (df : DFrame) (fo : List String) (lb : ℚ)
    (h : percentile95 (nonNanVals (filter_pair df fo).2) = some lb) :
    filter_gRNAs df fo = Except.ok (whereGT (filter_pair df fo).1 lb) ∧
    (∀ r c q, (filter_pair df fo).1.val r c = PV.val q →
      (q ≤ lb → (whereGT (filter_pair df fo).1 lb).val r c = PV.nan) ∧
      (lb < q → (whereGT (filter_pair df fo).1 lb).val r c = PV.val q)) ∧
    (∀ r c, (filter_pair df fo).1.val r c = PV.nan →
      (whereGT (filter_pair df fo).1 lb).val r c = PV.nan) := by
  refine ⟨filter_gRNAs_ok_intro df fo lb h, fun r c q hv => ⟨fun hle => ?_, fun hlt => ?_⟩,
    fun r c hv => ?_⟩
  · rw [whereGT_val, hv]
    simp [pvGt, not_lt.mpr hle]
  · rw [whereGT_val, hv]
    simp [pvGt, hlt]
  · rw [whereGT_val, hv]
    simp [pvGt]

/-- C2 witness: on `exDF2` the reference values are the two excluded-level
counts 50 and 50, so the threshold is 50; the library guide with count 50 is
masked and the positive control with count 500 passes unchanged. -/
theorem filter_noise_threshold_masking_witness :
    percentile95 (nonNanVals (filter_pair exDF2 default_filter_out).2) = some 50 ∧
    (whereGT (filter_pair exDF2 default_filter_out).1 50).val "Wnt_sg1" "sample1" = PV.nan ∧
    (whereGT (filter_pair exDF2 default_filter_out).1 50).val "Essential_X_1" "sample1"
      = PV.val 500 := by
  have hvals : nonNanVals (filter_pair exDF2 default_filter_out).2 = [50, 50] := by decide
  have hceil : (⌈(19/20 : ℚ)⌉ : ℤ) = 1 := by
    rw [Int.ceil_eq_iff]
    constructor <;> norm_num
  have hper : percentile95 (nonNanVals (filter_pair exDF2 default_filter_out).2) = some 50 := by
    rw [hvals]
    norm_num [percentile95, hceil]
  have hm := (filter_noise_threshold_masking exDF2 default_filter_out 50 hper).2.1
  refine ⟨hper, ?_, ?_⟩
  · exact (hm "Wnt_sg1" "sample1" 50 (by decide)).1 (by norm_num)
  · exact (hm "Essential_X_1" "sample1" 500 (by decide)).2 (by norm_num)

/-- A sum over cells that are finite-or-NaN is a finite value. -/
theorem pvSum_exists_fin (l : List PV)
    (h : ∀ x ∈ l, x ≠ PV.inf ∧ x ≠ PV.ninf) :
    ∃ T, pvSumSkipNa l = PV.val T := by
  induction l with
  | nil => exact ⟨0, rfl⟩
  | cons x t ih =>
      obtain ⟨T, hT⟩ := ih (fun y hy => h y (List.mem_cons_of_mem x hy))
      have hx := h x (List.mem_cons_self x t)
      cases x with
      | nan => exact ⟨T, by simpa [pvSumSkipNa] using hT⟩
      | inf => exact absurd rfl hx.1
      | ninf => exact absurd rfl hx.2
      | val q =>
          refine ⟨q + T, ?_⟩
          simp only [pvSumSkipNa, List.foldr_cons] at hT ⊢
          rw [hT]
          rfl

/-- Rescaling every finite cell by `S` and `1e4` rescales the skip-NaN sum. -/
theorem pvSum_map_normalize (S : ℚ) (hS : S ≠ 0) (l : List PV) (T : ℚ)
    (hmem : ∀ x ∈ l, x ≠ PV.inf ∧ x ≠ PV.ninf)
    (hsum : pvSumSkipNa l = PV.val T) :
    pvSumSkipNa (l.map (fun x => pvMul (pvDiv x (PV.val S)) (PV.val 10000)))
      = PV.val (T / S * 10000) := by
  induction l generalizing T with
  | nil =>
      simp only [pvSumSkipNa, List.foldr_nil] at hsum
      obtain rfl : (0 : ℚ) = T := by injection hsum
      simp [pvSumSkipNa]
  | cons x t ih =>
      have hx := hmem x (List.mem_cons_self x t)
      have hmem2 := fun y hy => hmem y (List.mem_cons_of_mem x hy)
      obtain ⟨T2, hT2⟩ := pvSum_exists_fin t hmem2
      cases x with
      | nan =>
          have hsum2 : pvSumSkipNa t = PV.val T := by simpa [pvSumSkipNa] using hsum
          have ht := ih T hmem2 hsum2
          simpa [pvSumSkipNa, pvDiv, pvMul] using ht
      | inf => exact absurd rfl hx.1
      | ninf => exact absurd rfl hx.2
      | val q =>
          have hsum2 : pvAdd (PV.val q) (pvSumSkipNa t) = PV.val T := by
            simpa [pvSumSkipNa] using hsum
          rw [hT2] at hsum2
          have hqT : q + T2 = T := by
            simp only [pvAdd] at hsum2
            injection hsum2
          have ht := ih T2 hmem2 hT2
          simp only [List.map_cons, pvSumSkipNa, List.foldr_cons] at ht ⊢
          rw [ht]
          simp only [pvDiv, pvMul, if_neg hS]
          have : PV.val (q / S * 10000) ≠ PV.nan := by simp
          rw [if_neg this]
          simp only [pvAdd, PV.val.injEq]
          rw [← hqT]
          ring

/-- C3: normalizing a column whose non-missing values are finite and sum to
`S > 0` yields a column whose non-missing values sum to exactly 10000, and
missing cells stay missing. -/
theorem normalize_column_total (d : DFrame) (c : String) (S : ℚ)
    (hfin : ∀ r ∈ d.rows, d.val r c ≠ PV.inf ∧ d.val r c ≠ PV.ninf)
    (hsum : colSum d c = PV.val S) (hS : 0 < S) :
    pvSumSkipNa (colVals (normalize_by_total d) c) = PV.val 10000 ∧
    ∀ r, d.val r c = PV.nan → (normalize_by_total d).val r c = PV.nan := by
  constructor
  · have hmap : colVals (normalize_by_total d) c
        = (colVals d c).map (fun x => pvMul (pvDiv x (colSum d c)) (PV.val 10000)) := by
      simp [colVals, normalize_by_total, List.map_map]
    rw [hmap, hsum]
    have hmem : ∀ x ∈ colVals d c, x ≠ PV.inf ∧ x ≠ PV.ninf := by
      intro x hx
      simp only [colVals, List.mem_map] at hx
      obtain ⟨r, hr, rfl⟩ := hx
      exact hfin r hr
    have h := pvSum_map_normalize S (ne_of_gt hS) (colVals d c) S hmem hsum
    rw [h, div_self (ne_of_gt hS)]
    norm_num
  · intro r hr
    show pvMul (pvDiv (d.val r c) (colSum d c)) (PV.val 10000) = PV.nan
    rw [hr, hsum]
    rfl

/-- A three-guide column summing to 100, with one missing cell. -/
def exDF3 : DFrame :=
  ⟨["g1", "g2", "g3"], ["c"],
   fun r _ => if r == "g1" then PV.val 30 else if r == "g2" then PV.val 70 else PV.nan⟩

/-- C3 witness: the column [30, 70, NaN] sums to 100 and normalizes to a
column summing to 10000 with the missing cell still missing. -/
theorem normalize_column_total_witness :
    colSum exDF3 "c" = PV.val 100 ∧
    pvSumSkipNa (colVals (normalize_by_total exDF3) "c") = PV.val 10000 ∧
    (normalize_by_total exDF3).val "g3" "c" = PV.nan := by
  have hsum : colSum exDF3 "c" = PV.val 100 := by
    norm_num +decide [colSum, colVals, exDF3, pvSumSkipNa, pvAdd]
  have hfin : ∀ r ∈ exDF3.rows, exDF3.val r "c" ≠ PV.inf ∧ exDF3.val r "c" ≠ PV.ninf := by
    decide
  have h := normalize_column_total exDF3 "c" 100 hfin hsum (by norm_num)
  exact ⟨hsum, h.1, h.2 "g3" (by decide)⟩

/-- C4: with non-empty positive- ("Essential") and negative- ("CTRL")
control selections, `screen_zscore` with its default `z_score=False` returns
exactly `1 - 3*(std(pos) + std(neg)) / abs(mean(pos) - mean(neg))` (numpy
population standard deviations), and the summary's per-sample efficiency is
exactly `1 / -score`, the sign inversion preserved. -/
theorem screen_zscore_formula_and_efficiency (d : DFrame) (c : String)
    (hp : posControls (colDropna d c) ≠ [])
    (hn : negControls (colDropna d c) ≠ []) :
    screen_zscore (colDropna d c) false =
      1 - 3 * (npstd (posControls (colDropna d c)) + npstd (negControls (colDropna d c)))
        / |npmean (posControls (colDropna d c)) - npmean (negControls (colDropna d c))| ∧
    zez_efficiency (screen_zscore (colDropna d c) false) =
      1 / -(1 - 3 * (npstd (posControls (colDropna d c)) + npstd (negControls (colDropna d c)))
        / |npmean (posControls (colDropna d c)) - npmean (negControls (colDropna d c))|) :=
  ⟨rfl, rfl⟩

/-- C4 witness: the formula at a concrete four-guide column. -/
theorem screen_zscore_formula_and_efficiency_witness :
    posControls (colDropna exDF4 "s") ≠ [] ∧
    negControls (colDropna exDF4 "s") ≠ [] ∧
    screen_zscore (colDropna exDF4 "s") false =
      1 - 3 * (npstd (posControls (colDropna exDF4 "s")) + npstd (negControls (colDropna exDF4 "s")))
        / |npmean (posControls (colDropna exDF4 "s")) - npmean (negControls (colDropna exDF4 "s"))| := by
  have hpl : posControls (colDropna exDF4 "s") = [((1:ℚ):ℝ), ((3:ℚ):ℝ)] := rfl
  have hnl : negControls (colDropna exDF4 "s") = [((10:ℚ):ℝ), ((14:ℚ):ℝ)] := rfl
  have hp : posControls (colDropna exDF4 "s") ≠ [] := by rw [hpl]; simp
  have hn : negControls (colDropna exDF4 "s") ≠ [] := by rw [hnl]; simp
  exact ⟨hp, hn, (screen_zscore_formula_and_efficiency exDF4 "s" hp hn).1⟩

/-! ### Helper lemmas for the scorer invariance (C7) -/

/-- Summing an affinely transformed list. -/
theorem list_sum_affine (m t : ℝ) (l : List ℝ) :
    (l.map (fun x => (x - m) / t)).sum = (l.sum - l.length * m) / t := by
  induction l with
  | nil => simp
  | cons a s ih =>
      simp only [List.map_cons, List.sum_cons, List.length_cons, ih]
      rw [div_add_div_same]
      congr 1
      push_cast
      ring

/-- The mean of an affinely transformed non-empty list. -/
theorem npmean_affine (m t : ℝ) (l : List ℝ) (hl : l ≠ []) :
    npmean (l.map (fun x => (x - m) / t)) = (npmean l - m) / t := by
  have hn : (l.length : ℝ) ≠ 0 := Nat.cast_ne_zero.mpr (List.length_pos.mpr hl).ne'
  unfold npmean
  rw [List.length_map, list_sum_affine]
  rcases eq_or_ne t 0 with h0 | h0
  · simp [h0]
  · have hrhs : l.sum / (l.length : ℝ) - m = (l.sum - l.length * m) / l.length := by
      rw [sub_div]
      congr 1
      exact (mul_div_cancel_left₀ m hn).symm
    rw [hrhs, div_div, div_div, mul_comm t]

/-- The sum of squared deviations of an affinely transformed list. -/
theorem sum_sq_affine (m mu t : ℝ) (l : List ℝ) :
    ((l.map (fun x => (x - m) / t)).map (fun y => (y - (mu - m) / t) ^ 2)).sum
      = (l.map (fun x => (x - mu) ^ 2)).sum / t ^ 2 := by
  induction l with
  | nil => simp
  | cons a s ih =>
      simp only [List.map_cons, List.sum_cons, ih]
      have hh : ((a - m) / t - (mu - m) / t) ^ 2 = (a - mu) ^ 2 / t ^ 2 := by
        rw [div_sub_div_same, div_pow]
        congr 2
        ring
      rw [hh, div_add_div_same]

/-- The numpy population standard deviation of an affinely transformed
non-empty list, for a positive scale. -/
theorem npstd_affine (m t : ℝ) (ht : 0 < t) (l : List ℝ) (hl : l ≠ []) :
    npstd (l.map (fun x => (x - m) / t)) = npstd l / t := by
  unfold npstd
  rw [npmean_affine m t l hl, sum_sq_affine, List.length_map, div_right_comm]
  rw [Real.sqrt_div' _ (by positivity : (0:ℝ) ≤ t ^ 2)]
  rw [Real.sqrt_sq ht.le]

/-- Selecting by guide-id substring commutes with transforming the values. -/
theorem select_map_values (pat : String) (g : ℝ → ℝ) (s : List (String × ℝ)) :
    ((s.map (fun p => (p.1, g p.2))).filter (fun p => strContains p.1 pat)).map Prod.snd
      = ((s.filter (fun p => strContains p.1 pat)).map Prod.snd).map g := by
  induction s with
  | nil => rfl
  | cons a t ih =>
      simp only [List.map_cons, List.filter_cons]
      by_cases h : strContains a.1 pat = true
      · simp only [h, if_true, List.map_cons, ih]
      · simp only [h, Bool.false_eq_true, if_false, ih]

/-- The positive-control values form a sublist of the column's values. -/
theorem posControls_sublist (s : List (String × ℝ)) :
    (posControls s).Sublist (s.map Prod.snd) :=
  (List.filter_sublist s).map Prod.snd

/-- A list whose squared deviations sum to a positive value has a member
away from the reference point. -/
theorem list_sum_sq_pos (l : List ℝ) (x : ℝ) (hx : x ∈ l) (m : ℝ) (hxm : x ≠ m) :
    0 < (l.map (fun z => (z - m) ^ 2)).sum := by
  induction l with
  | nil => cases hx
  | cons a t ih =>
      simp only [List.map_cons, List.sum_cons]
      have hrest : 0 ≤ (t.map (fun z => (z - m) ^ 2)).sum :=
        List.sum_nonneg (by
          intro y hy
          simp only [List.mem_map] at hy
          obtain ⟨z, _, rfl⟩ := hy
          exact sq_nonneg _)
      rcases List.mem_cons.mp hx with rfl | hxt
      · have h2 : x - m ≠ 0 := sub_ne_zero.mpr hxm
        have h1 : 0 < (x - m) ^ 2 := sq_pos_of_ne_zero h2
        linarith
      · have h1 : 0 ≤ (a - m) ^ 2 := sq_nonneg _
        have h2 := ih hxt
        linarith

/-- A nonzero numpy standard deviation forces a member away from the mean. -/
theorem exists_ne_mean_of_npstd_ne_zero (l : List ℝ) (h : npstd l ≠ 0) :
    ∃ x ∈ l, x ≠ npmean l := by
  by_contra hc
  push_neg at hc
  apply h
  unfold npstd
  have hz : (l.map (fun z => (z - npmean l) ^ 2)).sum = 0 := by
    apply List.sum_eq_zero
    intro y hy
    simp only [List.mem_map] at hy
    obtain ⟨z, hz2, rfl⟩ := hy
    rw [hc z hz2]
    ring
  rw [hz, zero_div, Real.sqrt_zero]

/-- The sum of a constant list. -/
theorem list_sum_const (a : ℝ) : ∀ l : List ℝ, (∀ z ∈ l, z = a) →
    l.sum = l.length * a := by
  intro l
  induction l with
  | nil => simp
  | cons b t ih =>
      intro h
      simp only [List.sum_cons, List.length_cons]
      rw [h b (List.mem_cons_self b t), ih (fun z hz => h z (List.mem_cons_of_mem b hz))]
      push_cast
      ring

/-- The mean of a constant non-empty list. -/
theorem npmean_const (l : List ℝ) (a : ℝ) (h : ∀ z ∈ l, z = a) (hl : l ≠ []) :
    npmean l = a := by
  have hn : (l.length : ℝ) ≠ 0 := Nat.cast_ne_zero.mpr (List.length_pos.mpr hl).ne'
  unfold npmean
  rw [list_sum_const a l h]
  field_simp

/-- Spread in a sublist forces spread in the full list. -/
theorem exists_ne_mean_superlist (p v : List ℝ) (hsub : p.Sublist v) (x : ℝ)
    (hx : x ∈ p) (hxm : x ≠ npmean p) (hp : p ≠ []) :
    ∃ y ∈ v, y ≠ npmean v := by
  by_contra hc
  push_neg at hc
  have hall : ∀ z ∈ p, z = npmean v := fun z hz => hc z (hsub.subset hz)
  have hmp : npmean p = npmean v := npmean_const p (npmean v) hall hp
  exact hxm (by rw [hmp]; exact hall x hx)

/-- A member away from the mean makes the pandas sample deviation positive. -/
theorem pdstd_pos_of_exists_ne_mean (v : List ℝ) (x : ℝ) (hx : x ∈ v)
    (hxm : x ≠ npmean v) : 0 < pdstd v := by
  have hB : 0 < (v.map (fun z => (z - npmean v) ^ 2)).sum :=
    list_sum_sq_pos v x hx (npmean v) hxm
  have hn1 : 0 < (v.length : ℝ) - 1 := by
    rcases v with _ | ⟨a, t⟩
    · cases hx
    rcases t with _ | ⟨b, t2⟩
    · exfalso
      have hxa : x = a := by simpa using hx
      have hma : npmean [a] = a := by simp [npmean]
      exact hxm (by rw [hxa, hma])
    · simp only [List.length_cons]
      push_cast
      linarith
  unfold pdstd
  exact Real.sqrt_pos.mpr (div_pos hB hn1)

/-- C7: for a series whose positive ("Essential") and negative ("CTRL")
control selections are disjoint, non-empty and have nonzero standard
deviation, the sensitivity score with z-score pre-normalization of the whole
column (`z_score=True`) equals the score without it: the score formula is
invariant under the uniform affine transform applied by z-scoring. -/
theorem screen_zscore_invariant_under_zscoring (s : List (String × ℝ))
    (hdisj : ∀ p ∈ s, ¬(strContains p.1 "Essential" = true ∧ strContains p.1 "CTRL" = true))
    (hp : posControls s ≠ []) (hn : negControls s ≠ [])
    (hps : npstd (posControls s) ≠ 0) (hns : npstd (negControls s) ≠ 0) :
    screen_zscore s true = screen_zscore s false := by
  obtain ⟨x, hx, hxm⟩ := exists_ne_mean_of_npstd_ne_zero (posControls s) hps
  obtain ⟨y, hy, hym⟩ := exists_ne_mean_superlist (posControls s) (s.map Prod.snd)
    (posControls_sublist s) x hx hxm hp
  have hσ : 0 < pdstd (s.map Prod.snd) := pdstd_pos_of_exists_ne_mean _ y hy hym
  show Zform
      (posControls (s.map (fun p =>
        (p.1, (p.2 - npmean (s.map Prod.snd)) / pdstd (s.map Prod.snd)))))
      (negControls (s.map (fun p =>
        (p.1, (p.2 - npmean (s.map Prod.snd)) / pdstd (s.map Prod.snd)))))
    = Zform (posControls s) (negControls s)
  have hselp : posControls (s.map (fun p =>
        (p.1, (p.2 - npmean (s.map Prod.snd)) / pdstd (s.map Prod.snd))))
      = (posControls s).map
          (fun z => (z - npmean (s.map Prod.snd)) / pdstd (s.map Prod.snd)) :=
    select_map_values "Essential"
      (fun z => (z - npmean (s.map Prod.snd)) / pdstd (s.map Prod.snd)) s
  have hseln : negControls (s.map (fun p =>
        (p.1, (p.2 - npmean (s.map Prod.snd)) / pdstd (s.map Prod.snd))))
      = (negControls s).map
          (fun z => (z - npmean (s.map Prod.snd)) / pdstd (s.map Prod.snd)) :=
    select_map_values "CTRL"
      (fun z => (z - npmean (s.map Prod.snd)) / pdstd (s.map Prod.snd)) s
  rw [hselp, hseln]
  unfold Zform
  rw [npmean_affine _ _ _ hp, npmean_affine _ _ _ hn,
    npstd_affine _ _ hσ _ hp, npstd_affine _ _ hσ _ hn]
  rw [div_sub_div_same,
    show npmean (posControls s) - npmean (s.map Prod.snd)
        - (npmean (negControls s) - npmean (s.map Prod.snd))
      = npmean (posControls s) - npmean (negControls s) from by ring]
  rw [abs_div, abs_of_pos hσ, div_add_div_same]
  congr 1
  rcases eq_or_ne |npmean (posControls s) - npmean (negControls s)| 0 with hD | hD
  · rw [hD, zero_div, div_zero, div_zero]
  · field_simp

/-- C7 witness: the invariance at a concrete series with nonzero spread in
both control groups. -/
theorem screen_zscore_invariant_under_zscoring_witness :
    npstd (posControls exS7) ≠ 0 ∧ npstd (negControls exS7) ≠ 0 ∧
    screen_zscore exS7 true = screen_zscore exS7 false := by
  have hpl : posControls exS7 = [(1:ℝ), 3] := rfl
  have hnl : negControls exS7 = [(10:ℝ), 14] := rfl
  have hmp : npmean [(1:ℝ), 3] = 2 := by norm_num [npmean]
  have hsp : npstd [(1:ℝ), 3] = 1 := by
    norm_num [npstd, hmp, Real.sqrt_one]
  have hmn : npmean [(10:ℝ), 14] = 12 := by norm_num [npmean]
  have hsn : npstd [(10:ℝ), 14] = 2 := by
    have h4 : Real.sqrt 4 = 2 := by
      rw [show (4:ℝ) = 2 ^ 2 by norm_num, Real.sqrt_sq (by norm_num : (0:ℝ) ≤ 2)]
    norm_num [npstd, hmn, h4]
  have hps : npstd (posControls exS7) ≠ 0 := by rw [hpl, hsp]; norm_num
  have hns : npstd (negControls exS7) ≠ 0 := by rw [hnl, hsn]; norm_num
  have hdisj : ∀ p ∈ exS7,
      ¬(strContains p.1 "Essential" = true ∧ strContains p.1 "CTRL" = true) := by decide
  have hp : posControls exS7 ≠ [] := by rw [hpl]; simp
  have hn : negControls exS7 ≠ [] := by rw [hnl]; simp
  exact ⟨hps, hns, screen_zscore_invariant_under_zscoring exS7 hdisj hp hn hps hns⟩

/-! ### Helper lemmas for the comparator ranks (C8) -/

/-- Counting two disjoint Boolean predicates both below a third. -/
theorem countP_two_le {α : Type} (p q r : α → Bool)
    (hpr : ∀ x, p x = true → r x = true) (hqr : ∀ x, q x = true → r x = true)
    (hdisj : ∀ x, ¬(p x = true ∧ q x = true)) (l : List α) :
    l.countP p + l.countP q ≤ l.countP r := by
  induction l with
  | nil => simp
  | cons a t ih =>
      simp only [List.countP_cons]
      by_cases hpa : p a = true
      · have hqa : ¬q a = true := fun h2 => hdisj a ⟨hpa, h2⟩
        rw [if_pos hpa, if_neg hqa, if_pos (hpr a hpa)]
        omega
      · by_cases hqa : q a = true
        · rw [if_neg hpa, if_pos hqa, if_pos (hqr a hqa)]
          omega
        · rw [if_neg hpa, if_neg hqa]
          split <;> omega

/-- With `q` holding at position `i < j`, counting over `take j` exceeds
counting over `take i`. -/
theorem countP_take_succ_le {α : Type} (q : α → Bool) (l : List α) (i j : ℕ)
    (hij : i < j) (hi : i < l.length) (hq : q l[i] = true) :
    (l.take i).countP q + 1 ≤ (l.take j).countP q := by
  have h1 : l.take j = l.take i ++ (l.drop i).take (j - i) := by
    have h0 := List.take_add l i (j - i)
    rw [show i + (j - i) = j from by omega] at h0
    exact h0
  have h2 : (l.drop i).take (j - i) = l[i] :: (l.drop (i + 1)).take (j - i - 1) := by
    rw [List.drop_eq_getElem_cons hi, show j - i = (j - i - 1) + 1 from by omega,
      List.take_succ_cons]
    simp
  rw [h1, List.countP_append, h2, List.countP_cons, if_pos hq]
  omega

/-- With `q` holding at position `i`, the count over `take i` is exceeded by
the count over the whole list. -/
theorem countP_take_succ_le_full {α : Type} (q : α → Bool) (l : List α) (i : ℕ)
    (hi : i < l.length) (hq : q l[i] = true) :
    (l.take i).countP q + 1 ≤ l.countP q := by
  have h1 : l.countP q = (l.take i).countP q + (l.drop i).countP q := by
    conv_lhs => rw [← List.take_append_drop i l]
    rw [List.countP_append]
  have h2 : 1 ≤ (l.drop i).countP q := by
    rw [List.drop_eq_getElem_cons hi, List.countP_cons, if_pos hq]
    omega
  omega

/-- The rank list's entries are `rankAt` at the positions. -/
theorem rank_desc_first_getD {α : Type} [LinearOrder α] (l : List α) (i : ℕ)
    (hi : i < l.length) :
    (rank_desc_first l).getD i 0 = rankAt l i l[i] := by
  have hlen : i < (List.map (fun p => rankAt l p.1 p.2) (List.enum l)).length := by
    simpa using hi
  unfold rank_desc_first
  rw [List.getD_eq_getElem?_getD, List.getElem?_eq_getElem hlen]
  simp [List.getElem_map, List.getElem_enum]

/-- Pandas first-method ranking of a two-element tie. -/
theorem rank_desc_first_pair {α : Type} [LinearOrder α] (a : α) :
    rank_desc_first [a, a] = [1, 2] := by
  simp [rank_desc_first, rankAt, List.countP_cons, List.enum, List.enumFrom,
    lt_irrefl]

/-- C8 (amended): the comparator's rank call — pandas
`rank(ascending=False, method="first")` on the fold-change series of the
randomly permuted rows — gives strictly larger fold-changes strictly
smaller (better) ranks, and breaks ties by position in the series it is
applied to, i.e. the randomly permuted order rather than necessarily the
guides' original input order; the spec's concrete scenario, fold-changes
[2, -1, 0.5] for guides A, B, C, yields ranks A=1, B=3, C=2. -/
theorem gRNA_rank_descending_ties_by_position :
    (∀ (α : Type) [LinearOrder α] (l : List α) (i j : ℕ)
      (hi : i < l.length) (hj : j < l.length),
      (rank_desc_first l).getD i 0 = rankAt l i l[i] ∧
      (l[j] < l[i] → rankAt l i l[i] < rankAt l j l[j]) ∧
      (l[i] = l[j] → i < j → rankAt l i l[i] < rankAt l j l[j])) ∧
    rank_desc_first [(2:ℚ), -1, 1/2] = [1, 3, 2] := by
  constructor
  · intro α inst l i j hi hj
    refine ⟨rank_desc_first_getD l i hi, fun hlt => ?_, fun heq hij => ?_⟩
    · have key1 : l.countP (fun y => decide (l[i] < y))
            + l.countP (fun y => decide (y = l[i]))
          ≤ l.countP (fun y => decide (l[j] < y)) := by
        apply countP_two_le
        · intro x hx
          simp only [decide_eq_true_eq] at hx ⊢
          exact lt_trans hlt hx
        · intro x hx
          simp only [decide_eq_true_eq] at hx ⊢
          rw [hx]
          exact hlt
        · intro x hx
          obtain ⟨h1, h2⟩ := hx
          simp only [decide_eq_true_eq] at h1 h2
          rw [h2] at h1
          exact lt_irrefl _ h1
      have key2 : (l.take i).countP (fun y => decide (y = l[i])) + 1
          ≤ l.countP (fun y => decide (y = l[i])) :=
        countP_take_succ_le_full _ l i hi (by simp)
      unfold rankAt
      omega
    · unfold rankAt
      have key : (l.take i).countP (fun y => decide (y = l[i])) + 1
          ≤ (l.take j).countP (fun y => decide (y = l[i])) :=
        countP_take_succ_le _ l i j hij hi (by simp)
      rw [← heq]
      omega
  · norm_num [rank_desc_first, rankAt, List.enum, List.enumFrom, List.countP_cons]

/-- C8 counterexample: the claim that ties are broken by the guides'
original order in the input matrix fails — with tied fold-changes the ranks
follow the randomly permuted row order.  On the same input, the permutation
[1,0] gives guide A rank 2, while the identity permutation gives it rank 1. -/
theorem gRNA_rank_tie_order_cex :
    gRNA_rank_ranks [1, 0] exPairs8 = [("B", 1), ("A", 2)] ∧
    gRNA_rank_ranks [0, 1] exPairs8 = [("A", 1), ("B", 2)] := by
  have hfc1 : fold_change (permuteRows [1, 0] exPairs8)
      = [("B", Real.logb 2 (1 + 1) - Real.logb 2 (1 + 0)),
         ("A", Real.logb 2 (1 + 1) - Real.logb 2 (1 + 0))] := rfl
  have hfc2 : fold_change (permuteRows [0, 1] exPairs8)
      = [("A", Real.logb 2 (1 + 1) - Real.logb 2 (1 + 0)),
         ("B", Real.logb 2 (1 + 1) - Real.logb 2 (1 + 0))] := rfl
  constructor
  · show ((fold_change (permuteRows [1, 0] exPairs8)).map Prod.fst).zip
        (rank_desc_first ((fold_change (permuteRows [1, 0] exPairs8)).map Prod.snd))
      = [("B", 1), ("A", 2)]
    rw [hfc1]
    simp only [List.map_cons, List.map_nil]
    rw [rank_desc_first_pair]
    rfl
  · show ((fold_change (permuteRows [0, 1] exPairs8)).map Prod.fst).zip
        (rank_desc_first ((fold_change (permuteRows [0, 1] exPairs8)).map Prod.snd))
      = [("A", 1), ("B", 2)]
    rw [hfc2]
    simp only [List.map_cons, List.map_nil]
    rw [rank_desc_first_pair]
    rfl

/-- C8 witness: the descending-rank property applied at a concrete list. -/
theorem gRNA_rank_descending_ties_by_position_witness :
    ([(3:ℚ), 1])[1] < ([(3:ℚ), 1])[0] ∧
    rankAt [(3:ℚ), 1] 0 (([(3:ℚ), 1])[0]) < rankAt [(3:ℚ), 1] 1 (([(3:ℚ), 1])[1]) :=
  ⟨by decide,
    (gRNA_rank_descending_ties_by_position.1 ℚ [(3:ℚ), 1] 0 1 (by decide)
      (by decide)).2.1 (by decide)⟩
